import Mathlib

/-!
Verification of the pixel-difference engine of the ImageComparisonTool
repository (`diff_calculator.py`, class `ImageDiffCalculator`).

The engine is embedded shallowly:

* Pixels are triples of natural numbers (8-bit channel values 0..255).
* Images are a width, a height and a total pixel function; statements about
  image content always quantify over the in-range coordinates
  `x < width`, `y < height`, matching the rectangular numpy arrays of the
  source.
* The per-pixel grayscale difference `diff_gray = mean_c |A_c - B_c|` is a
  float32 value `s / 3` with `s` an integer in 0..765.  Since `s / 3` is
  either an exact integer or at distance 1/3 from every integer, while the
  float32 rounding error at magnitude <= 765 is below 2^-13, every comparison
  of `diff_gray` against an integer threshold in the source coincides with the
  exact comparison of `s` against `3 * threshold`.  The embedding therefore
  carries the scaled integer `s` (three times the mean) and compares it with
  `3 * threshold`, which is exact.
* The normalization `(diff_gray / diff_gray.max() * 255).astype(np.uint8)`
  is modelled in exact arithmetic: the factor 3 cancels between numerator and
  denominator, giving the truncated value `s * 255 / M` (natural division).
  No claim checked here depends on the one-ulp float32 rounding of this step.
* The hot colormap, in contrast, is modelled with exact IEEE-754 binary32
  (float32) semantics, because the claims about it probe exact boundary
  values where the float32 rounding is observable in the uint8 output.
-/

set_option maxRecDepth 100000
set_option maxHeartbeats 4000000

namespace ImageDiff

/-! ### A float32 model for the colormap arithmetic

Every float32 value arising in `_apply_hot_colormap` lies in `[2^-9, 2^9)`
or is zero, so each is an integer multiple of `2^-60`.  A value `v` is
represented by the natural number `v * 2^60`. -/

/-- Fuel-bounded floor of the base-2 logarithm.  With fuel at least the bit
length of `n` this is the usual `⌊log₂ n⌋`; structural recursion on the fuel
keeps it kernel-reducible for `decide`. -/
def log2F : ℕ → ℕ → ℕ
  | 0, _ => 0
  | fuel + 1, n => if 2 ≤ n then log2F fuel (n / 2) + 1 else 0

/-- Scale factor of the fixed-point representation of float32 values. -/
def fscale : ℕ := 2 ^ 60

/-- Round the exact nonnegative rational `p / q` to the nearest IEEE-754
binary32 value (round to nearest, ties to even), returned scaled by `2^60`.

For a nonzero value with binade exponent `e` (so `2^e ≤ p/q < 2^(e+1)`,
recovered as `log2F 160 (p * 2^60 / q) - 60`), the 24-bit significand is
`m = round(p * 2^(23-e) / q)` and the result is `m * 2^(e-23)`, i.e.
`m * 2^(e'-23)` in the scaled representation with `e' = e + 60`.  A carry
`m = 2^24` lands exactly on the next binade and needs no special case.
The formula is faithful for values whose scaled exponent `e'` lies in
`[23, 83]`, which covers every value produced by the colormap. -/
def f32round (p q : ℕ) : ℕ :=
  if p = 0 ∨ q = 0 then 0
  else
    let e := log2F 160 (p * fscale / q)
    let A := p * 2 ^ (83 - e)
    let m0 := A / q
    let r := A % q
    let m := if q < 2 * r then m0 + 1 else if 2 * r < q then m0 else m0 + m0 % 2
    m * 2 ^ (e - 23)

/-- Float32 division of two scaled values: `(a/2^60) / (b/2^60) = a / b`. -/
def fdivF (a b : ℕ) : ℕ := f32round a b

/-- Float32 subtraction of two scaled values (operands satisfy `b ≤ a` at
every use site, matching the masked numpy subtractions). -/
def fsubF (a b : ℕ) : ℕ := f32round (a - b) fscale

/-- Float32 multiplication of a scaled value by the integer 255. -/
def fmulF255 (a : ℕ) : ℕ := f32round (a * 255) fscale

/-- The float32 value of the Python literal `0.33`. -/
def c033 : ℕ := f32round 33 100

/-- The float32 value of the Python literal `0.66`. -/
def c066 : ℕ := f32round 33 50

/-- The float32 value of the Python literal `0.8`. -/
def c08 : ℕ := f32round 4 5

/-- The float32 value of the Python literal `0.2`. -/
def c02 : ℕ := f32round 1 5

/-- The C cast of a nonnegative float32 to `uint8` (`astype(np.uint8)`):
truncation toward zero.  All values cast in the colormap lie in `[0, 255]`. -/
def u8trunc (a : ℕ) : ℕ := a / fscale

/-- The float32 value `gray / 255.0` (`normalized` in the source). -/
def normalizedOf (g : ℕ) : ℕ := f32round g 255

/-! ### The hot colormap (`_apply_hot_colormap`)

The source writes, per pixel with normalized value `nm`:

* red:   255 where `nm >= 0.33`; `uint8(nm / 0.33 * 255)` where `0 < nm < 0.33`
* green: 255 where `nm >= 0.66`; `uint8((nm - 0.33) / 0.33 * 255)` where
  `0.33 < nm < 0.66`
* blue:  `uint8((nm - 0.8) / 0.2 * 255)` where `nm >= 0.8`

all other entries staying at the zero initialization.  Comparison of the
scaled natural representations coincides with float32 comparison. -/

/-- Red channel of the hot colormap at gray level `g` (0..255). -/
def hotR (g : ℕ) : ℕ :=
  let nm := normalizedOf g
  if c033 ≤ nm then 255
  else if 0 < nm then u8trunc (fmulF255 (fdivF nm c033))
  else 0

/-- Green channel of the hot colormap at gray level `g` (0..255). -/
def hotG (g : ℕ) : ℕ :=
  let nm := normalizedOf g
  if c066 ≤ nm then 255
  else if c033 < nm then u8trunc (fmulF255 (fdivF (fsubF nm c033) c033))
  else 0

/-- Blue channel of the hot colormap at gray level `g` (0..255). -/
def hotB (g : ℕ) : ℕ :=
  let nm := normalizedOf g
  if c08 ≤ nm then u8trunc (fmulF255 (fdivF (fsubF nm c08) c02))
  else 0

/-- An RGB pixel; channel values are 8-bit (0..255) for well-formed images. -/
structure RGB where
  r : ℕ
  g : ℕ
  b : ℕ
deriving DecidableEq, Repr

/-- One pixel of colorized output (`_apply_hot_colormap`, assembled). -/
def apply_hot_colormap (g : ℕ) : RGB := ⟨hotR g, hotG g, hotB g⟩

/-! ### Images and decoding -/

/-- A decoded RGB image: a rectangular pixel buffer addressed by
`(x, y)` with `x < width`, `y < height`.  The pixel map is total for
convenience of the embedding; only in-range values are meaningful. -/
structure Img where
  width : ℕ
  height : ℕ
  pix : ℕ → ℕ → RGB

/-- Channel values of every in-range pixel are 8-bit (what
`np.array(Image..., dtype=np.float32)` actually yields). -/
def Img.Valid (i : Img) : Prop :=
  ∀ x y, x < i.width → y < i.height →
    (i.pix x y).r ≤ 255 ∧ (i.pix x y).g ≤ 255 ∧ (i.pix x y).b ≤ 255

/-- An input to the engine: a path that decodes to an RGB image
(`Image.open(path).convert('RGB')` succeeds), or a path whose decoding
raises (missing file, non-image data, ...). -/
inductive Input where
  | decodable (img : Img)
  | nonImage (path : String)

/-- Decoding step `Image.open(path).convert('RGB')`: yields the decoded
image, or the exception message raised by the image library. -/
def openRGB : Input → Except String Img
  | .decodable img => .ok img
  | .nonImage p => .error ("cannot identify image file " ++ p)

/-! ### Size reconciliation -/

/-- Model of the external-library call `PIL.Image.resize((w, h), LANCZOS)`:
the result has the requested dimensions.  The verified claims rely only on
the output dimensions and on the resampling being a deterministic function
of the input image and the target size; the pixel content is modelled as
coordinate resampling since the Lanczos kernel is external library code. -/
def resize (i : Img) (w h : ℕ) : Img :=
  ⟨w, h, fun x y => i.pix (x * i.width / w) (y * i.height / h)⟩

/-- Size reconciliation, exactly as in `calculate_diff` /
`calculate_diff_stats`: if the sizes differ, each image that is not already
of size `(max width, max height)` is resized to it. -/
def alignPair (i1 i2 : Img) : Img × Img :=
  if (i1.width, i1.height) ≠ (i2.width, i2.height) then
    (if (i1.width, i1.height) ≠ (max i1.width i2.width, max i1.height i2.height)
      then resize i1 (max i1.width i2.width) (max i1.height i2.height) else i1,
     if (i2.width, i2.height) ≠ (max i1.width i2.width, max i1.height i2.height)
      then resize i2 (max i1.width i2.width) (max i1.height i2.height) else i2)
  else (i1, i2)

/-! ### Difference field -/

/-- Absolute difference of two channel values
(`np.abs(arr1 - arr2)`, exact in float32 for 8-bit operands). -/
def absDiff (a b : ℕ) : ℕ := max a b - min a b

/-- Three times the per-pixel grayscale difference
`diff_gray = np.mean(np.abs(arr1 - arr2), axis=2)`: the sum of the three
channel differences, an integer in 0..765 for valid images.  All source
comparisons of `diff_gray` with an integer `t` are embedded as comparisons
of this sum with `3 * t` (see the module comment). -/
def diffSum (i1 i2 : Img) (x y : ℕ) : ℕ :=
  absDiff (i1.pix x y).r (i2.pix x y).r +
    absDiff (i1.pix x y).g (i2.pix x y).g +
    absDiff (i1.pix x y).b (i2.pix x y).b

/-- The thresholding step `diff_gray[diff_gray < self.threshold] = 0`,
on the scaled field: values with mean strictly below the threshold
(`diffSum < 3 * t`) are zeroed. -/
def thresholdedSum (t : ℕ) (i1 i2 : Img) (x y : ℕ) : ℕ :=
  if diffSum i1 i2 x y < 3 * t then 0 else diffSum i1 i2 x y

/-- The in-range coordinates of a `w × h` array. -/
def grid (w h : ℕ) : Finset (ℕ × ℕ) := Finset.range w ×ˢ Finset.range h

/-- Maximum of the thresholded field over the whole array
(`diff_gray.max()`), on the scaled field. -/
def maxSum (t : ℕ) (i1 i2 : Img) : ℕ :=
  (grid i1.width i1.height).sup fun p => thresholdedSum t i1 i2 p.1 p.2

/-- The normalization step, per pixel: if the field maximum is positive,
`(diff_gray / diff_gray.max() * 255).astype(np.uint8)`, in exact arithmetic
`(s/3) / (M/3) * 255 = s * 255 / M` truncated (the scale factor 3 cancels);
otherwise `diff_gray.astype(np.uint8)`, the truncated mean `s / 3` (which is
0 at every in-range pixel in that branch). -/
def grayField (t : ℕ) (i1 i2 : Img) (x y : ℕ) : ℕ :=
  if 0 < maxSum t i1 i2 then thresholdedSum t i1 i2 x y * 255 / maxSum t i1 i2
  else thresholdedSum t i1 i2 x y / 3

/-- The colorized difference image built from an aligned pair: the hot
colormap applied to the normalized field, with the dimensions of the first
(aligned) array. -/
def diffImageAligned (t : ℕ) (i1 i2 : Img) : Img :=
  ⟨i1.width, i1.height, fun x y => apply_hot_colormap (grayField t i1 i2 x y)⟩

/-- The pure core of `calculate_diff` on two decoded images. -/
def calculate_diff_core (t : ℕ) (img1 img2 : Img) : Img :=
  diffImageAligned t (alignPair img1 img2).1 (alignPair img1 img2).2

/-! ### The engine calls -/

/-- Initial engine configuration (`__init__`): `self.threshold = 10`. -/
def initialThreshold : ℕ := 10

/-- Observable outcome of one `calculate_diff` call: the engine's threshold
after the call (`self.threshold`, the persistent state), the returned value
(`None` on the error path), and the lines written to stdout. -/
structure CallResult where
  threshold : ℕ
  output : Option Img
  printed : List String

/-- `calculate_diff(img1_path, img2_path, options)`.  `options` models the
optional dict: `some t` is a truthy dict `{'threshold': t}` (the source then
persists `self.threshold = options.get('threshold', self.threshold)`);
`none` is an absent/falsy dict or one without the key, leaving the threshold
unchanged.  Decoding failures are caught by the `except` block, which prints
and returns `None`. -/
def calculate_diff (threshold : ℕ) (inp1 inp2 : Input) (options : Option ℕ) :
    CallResult :=
  let t := match options with
    | some t => t
    | none => threshold
  match openRGB inp1 with
  | .error e => ⟨t, none, ["Error calculating image difference: " ++ e]⟩
  | .ok img1 =>
    match openRGB inp2 with
    | .error e => ⟨t, none, ["Error calculating image difference: " ++ e]⟩
    | .ok img2 => ⟨t, some (calculate_diff_core t img1 img2), []⟩

/-- The statistics record returned by `calculate_diff_stats`; the
percentages are the exact values of the Python float divisions (both claims
checked about them are insensitive to float64 rounding). -/
structure DiffStats where
  total_pixels : ℕ
  diff_pixels : ℕ
  diff_percentage : ℚ
  similarity_percentage : ℚ

/-- `np.sum(diff_gray > self.threshold)`: the number of in-range pixels
whose raw (un-normalized) mean difference strictly exceeds the threshold,
i.e. whose channel-difference sum exceeds `3 * t`. -/
def diffPixelsCore (t : ℕ) (i1 i2 : Img) : ℕ :=
  ((grid i1.width i1.height).filter fun p => 3 * t < diffSum i1 i2 p.1 p.2).card

/-- The pure core of `calculate_diff_stats` on two decoded images
(`total_pixels = arr1.shape[0] * arr1.shape[1] = height * width`). -/
def statsCore (t : ℕ) (img1 img2 : Img) : DiffStats :=
  let i1 := (alignPair img1 img2).1
  let i2 := (alignPair img1 img2).2
  let total := i1.height * i1.width
  let dp := diffPixelsCore t i1 i2
  ⟨total, dp, (dp : ℚ) / (total : ℚ) * 100,
    ((total - dp : ℕ) : ℚ) / (total : ℚ) * 100⟩

/-- Observable outcome of one `calculate_diff_stats` call.  The method reads
`self.threshold` and never writes it, so no threshold is returned. -/
structure StatsResult where
  stats : Option DiffStats
  printed : List String

/-- `calculate_diff_stats(img1_path, img2_path)`: no options parameter, no
state update; decoding failures are caught, printed, and yield `None`. -/
def calculate_diff_stats (threshold : ℕ) (inp1 inp2 : Input) : StatsResult :=
  match openRGB inp1 with
  | .error e => ⟨none, ["Error calculating diff stats: " ++ e]⟩
  | .ok img1 =>
    match openRGB inp2 with
    | .error e => ⟨none, ["Error calculating diff stats: " ++ e]⟩
    | .ok img2 => ⟨some (statsCore threshold img1 img2), []⟩

/-! ### Basic lemmas -/

theorem absDiff_self (a : ℕ) : absDiff a a = 0 := by
  simp [absDiff]

theorem absDiff_comm (a b : ℕ) : absDiff a b = absDiff b a := by
  unfold absDiff
  rw [Nat.max_comm, Nat.min_comm]

theorem diffSum_self (i : Img) (x y : ℕ) : diffSum i i x y = 0 := by
  simp [diffSum, absDiff_self]

theorem diffSum_comm (i1 i2 : Img) (x y : ℕ) :
    diffSum i1 i2 x y = diffSum i2 i1 x y := by
  unfold diffSum
  rw [absDiff_comm (i1.pix x y).r (i2.pix x y).r,
    absDiff_comm (i1.pix x y).g (i2.pix x y).g,
    absDiff_comm (i1.pix x y).b (i2.pix x y).b]

theorem thresholdedSum_comm (t : ℕ) (i1 i2 : Img) (x y : ℕ) :
    thresholdedSum t i1 i2 x y = thresholdedSum t i2 i1 x y := by
  unfold thresholdedSum
  rw [diffSum_comm]

theorem alignPair_of_eq (i1 i2 : Img) (hw : i1.width = i2.width)
    (hh : i1.height = i2.height) : alignPair i1 i2 = (i1, i2) := by
  unfold alignPair
  rw [if_neg (by simp [Prod.ext_iff, hw, hh])]

theorem alignPair_fst_width (i1 i2 : Img) :
    (alignPair i1 i2).1.width = max i1.width i2.width := by
  unfold alignPair
  split_ifs with hne h1 h2 <;> simp_all [resize, Prod.ext_iff]

theorem alignPair_fst_height (i1 i2 : Img) :
    (alignPair i1 i2).1.height = max i1.height i2.height := by
  unfold alignPair
  split_ifs with hne h1 h2 <;> simp_all [resize, Prod.ext_iff]

theorem alignPair_snd_width (i1 i2 : Img) :
    (alignPair i1 i2).2.width = max i1.width i2.width := by
  unfold alignPair
  split_ifs with hne h1 h2 <;> simp_all [resize, Prod.ext_iff]

theorem alignPair_snd_height (i1 i2 : Img) :
    (alignPair i1 i2).2.height = max i1.height i2.height := by
  unfold alignPair
  split_ifs with hne h1 h2 <;> simp_all [resize, Prod.ext_iff]

theorem alignPair_swap (i1 i2 : Img) :
    alignPair i2 i1 = ((alignPair i1 i2).2, (alignPair i1 i2).1) := by
  unfold alignPair
  by_cases h : (i1.width, i1.height) = (i2.width, i2.height)
  · rw [if_neg (not_ne_iff.mpr h.symm), if_neg (not_ne_iff.mpr h)]
  · rw [if_pos (Ne.symm h), if_pos h,
      max_comm i2.width i1.width, max_comm i2.height i1.height]

theorem maxSum_comm (t : ℕ) (i1 i2 : Img) (hw : i1.width = i2.width)
    (hh : i1.height = i2.height) : maxSum t i2 i1 = maxSum t i1 i2 := by
  unfold maxSum
  rw [← hw, ← hh]
  exact Finset.sup_congr rfl fun p _ => thresholdedSum_comm t i2 i1 p.1 p.2

/-! ### Evaluated facts about the hot colormap -/

theorem hot_zero : apply_hot_colormap 0 = ⟨0, 0, 0⟩ := by decide

theorem hotR_top : hotR 255 = 255 := by decide

theorem hotG_top : hotG 255 = 255 := by decide

theorem hot_nonblack :
    ∀ g : Fin 256, 1 ≤ (g : ℕ) → apply_hot_colormap (g : ℕ) ≠ ⟨0, 0, 0⟩ := by
  decide

/-! ### Identity lemmas -/

theorem thresholdedSum_self (t : ℕ) (i : Img) (x y : ℕ) :
    thresholdedSum t i i x y = 0 := by
  unfold thresholdedSum
  rw [diffSum_self]
  exact ite_self 0

theorem maxSum_self (t : ℕ) (i : Img) : maxSum t i i = 0 :=
  Nat.le_zero.mp (Finset.sup_le fun p _ => le_of_eq (thresholdedSum_self t i p.1 p.2))

theorem grayField_self (t : ℕ) (i : Img) (x y : ℕ) : grayField t i i x y = 0 := by
  unfold grayField
  rw [maxSum_self, thresholdedSum_self, if_neg (lt_irrefl 0), Nat.zero_div]

theorem diffPixelsCore_self (t : ℕ) (i : Img) : diffPixelsCore t i i = 0 := by
  unfold diffPixelsCore
  rw [Finset.card_eq_zero, Finset.eq_empty_iff_forall_not_mem]
  intro p hp
  rw [Finset.mem_filter, diffSum_self] at hp
  exact Nat.not_lt_zero _ hp.2

theorem core_self_black (t : ℕ) (i : Img) (x y : ℕ) :
    (calculate_diff_core t i i).pix x y = ⟨0, 0, 0⟩ := by
  unfold calculate_diff_core diffImageAligned
  rw [alignPair_of_eq i i rfl rfl]
  show apply_hot_colormap (grayField t i i x y) = ⟨0, 0, 0⟩
  rw [grayField_self]
  exact hot_zero

theorem statsCore_self (t : ℕ) (i : Img) :
    (statsCore t i i).diff_pixels = 0 ∧ (statsCore t i i).diff_percentage = 0 ∧
      (statsCore t i i).similarity_percentage =
        ((i.height * i.width : ℕ) : ℚ) / ((i.height * i.width : ℕ) : ℚ) * 100 := by
  unfold statsCore
  rw [alignPair_of_eq i i rfl rfl]
  refine ⟨diffPixelsCore_self t i, ?_, ?_⟩
  · show ((diffPixelsCore t i i : ℕ) : ℚ) / _ * 100 = 0
    rw [diffPixelsCore_self]
    simp
  · show (((i.height * i.width - diffPixelsCore t i i : ℕ) : ℕ) : ℚ) / _ * 100 = _
    rw [diffPixelsCore_self, Nat.sub_zero]

/-- C2: for every valid image X, `calculate_diff(X, X)` is all black
(every in-range pixel of the colorized output equals RGB (0,0,0)) and
`calculate_diff_stats(X, X)` reports `diff_percentage == 0` and
`similarity_percentage == 100`. -/
theorem claim_C2_identity (img : Img) (th t0 : ℕ) (opts : Option ℕ)
    (hw : 0 < img.width) (hh : 0 < img.height) :
    (∃ out, (calculate_diff th (.decodable img) (.decodable img) opts).output = some out ∧
      ∀ x y, x < out.width → y < out.height → out.pix x y = ⟨0, 0, 0⟩) ∧
    (∃ s, (calculate_diff_stats t0 (.decodable img) (.decodable img)).stats = some s ∧
      s.diff_percentage = 0 ∧ s.similarity_percentage = 100) := by
  constructor
  · cases opts with
    | none =>
        exact ⟨calculate_diff_core th img img, rfl,
          fun x y _ _ => core_self_black th img x y⟩
    | some t =>
        exact ⟨calculate_diff_core t img img, rfl,
          fun x y _ _ => core_self_black t img x y⟩
  · refine ⟨statsCore t0 img img, rfl, (statsCore_self t0 img).2.1, ?_⟩
    rw [(statsCore_self t0 img).2.2]
    have hpos : ((img.height * img.width : ℕ) : ℚ) ≠ 0 := by
      exact_mod_cast (Nat.mul_pos hh hw).ne'
    rw [div_self hpos]
    norm_num

/-- A concrete 2×2 image used to witness the identity claim. -/
def imgGray2 : Img := ⟨2, 2, fun _ _ => ⟨80, 120, 200⟩⟩

theorem claim_C2_identity_witness :
    (0 < imgGray2.width ∧ 0 < imgGray2.height) ∧
    ((∃ out, (calculate_diff 10 (.decodable imgGray2) (.decodable imgGray2)
        none).output = some out ∧
      ∀ x y, x < out.width → y < out.height → out.pix x y = ⟨0, 0, 0⟩) ∧
    (∃ s, (calculate_diff_stats 10 (.decodable imgGray2)
        (.decodable imgGray2)).stats = some s ∧
      s.diff_percentage = 0 ∧ s.similarity_percentage = 100)) :=
  ⟨⟨by decide, by decide⟩,
    claim_C2_identity imgGray2 10 10 none (by decide) (by decide)⟩

/-- C8: the engine's threshold configuration defaults to 10; a threshold
supplied in a call's options applies to that call and becomes the persisted
value; a subsequent call without an options override uses the previously
persisted threshold and leaves the state unchanged. -/
theorem claim_C8_threshold_state :
    initialThreshold = 10 ∧
    (∀ th t : ℕ, ∀ a b : Img,
      (calculate_diff th (.decodable a) (.decodable b) (some t)).threshold = t ∧
      (calculate_diff th (.decodable a) (.decodable b) (some t)).output =
        some (calculate_diff_core t a b)) ∧
    (∀ th : ℕ, ∀ a b : Img,
      (calculate_diff th (.decodable a) (.decodable b) none).threshold = th ∧
      (calculate_diff th (.decodable a) (.decodable b) none).output =
        some (calculate_diff_core th a b)) ∧
    (∀ th t : ℕ, ∀ a b c d : Img,
      (calculate_diff
          (calculate_diff th (.decodable a) (.decodable b) (some t)).threshold
          (.decodable c) (.decodable d) none).output =
        some (calculate_diff_core t c d)) :=
  ⟨rfl, fun _ _ _ _ => ⟨rfl, rfl⟩, fun _ _ _ => ⟨rfl, rfl⟩,
    fun _ _ _ _ _ _ => rfl⟩

/-- A concrete 1×1 image used in the decode-failure counterexample. -/
def imgBlack1 : Img := ⟨1, 1, fun _ _ => ⟨0, 0, 0⟩⟩

/-- C1 as stated is false: on a decode failure (`notes.txt` is not an image)
`calculate_diff` prints an error line — the engine does log on the error
path, and it returns `None` rather than a `DecodeError` value. -/
theorem claim_C1_counterexample :
    (calculate_diff 10 (.nonImage "notes.txt") (.decodable imgBlack1)
        none).printed ≠ [] ∧
    (calculate_diff_stats 10 (.nonImage "notes.txt")
        (.decodable imgBlack1)).printed ≠ [] := by
  constructor <;> exact fun h => List.noConfusion h

/-- C1 amended: when either input fails to decode, both operations catch the
exception, return `None` (no partial output), and print exactly one error
line. -/
theorem claim_C1_amended (th : ℕ) (opts : Option ℕ) (inp1 inp2 : Input)
    (h : (∃ e, openRGB inp1 = .error e) ∨ (∃ e, openRGB inp2 = .error e)) :
    ((calculate_diff th inp1 inp2 opts).output = none ∧
      (calculate_diff th inp1 inp2 opts).printed ≠ []) ∧
    ((calculate_diff_stats th inp1 inp2).stats = none ∧
      (calculate_diff_stats th inp1 inp2).printed ≠ []) := by
  rcases h with ⟨e, he⟩ | ⟨e, he⟩ <;>
    cases inp1 <;> cases inp2 <;>
    simp_all [calculate_diff, calculate_diff_stats, openRGB]

theorem claim_C1_amended_witness :
    ((∃ e, openRGB (.nonImage "notes.txt") = .error e) ∨
      (∃ e, openRGB (.decodable imgBlack1) = .error e)) ∧
    (((calculate_diff 10 (.nonImage "notes.txt") (.decodable imgBlack1)
          none).output = none ∧
      (calculate_diff 10 (.nonImage "notes.txt") (.decodable imgBlack1)
          none).printed ≠ []) ∧
    ((calculate_diff_stats 10 (.nonImage "notes.txt")
          (.decodable imgBlack1)).stats = none ∧
      (calculate_diff_stats 10 (.nonImage "notes.txt")
          (.decodable imgBlack1)).printed ≠ [])) :=
  ⟨Or.inl ⟨_, rfl⟩,
    claim_C1_amended 10 none (.nonImage "notes.txt") (.decodable imgBlack1)
      (Or.inl ⟨_, rfl⟩)⟩

/-! ### Symmetry -/

theorem grayField_comm (t : ℕ) (a b : Img) (hw : a.width = b.width)
    (hh : a.height = b.height) (x y : ℕ) :
    grayField t a b x y = grayField t b a x y := by
  unfold grayField
  rw [maxSum_comm t a b hw hh, thresholdedSum_comm t b a]

theorem calculate_diff_core_comm (t : ℕ) (i1 i2 : Img) :
    calculate_diff_core t i1 i2 = calculate_diff_core t i2 i1 := by
  unfold calculate_diff_core diffImageAligned
  rw [alignPair_swap i1 i2]
  dsimp only
  have hw : (alignPair i1 i2).1.width = (alignPair i1 i2).2.width :=
    (alignPair_fst_width i1 i2).trans (alignPair_snd_width i1 i2).symm
  have hh : (alignPair i1 i2).1.height = (alignPair i1 i2).2.height :=
    (alignPair_fst_height i1 i2).trans (alignPair_snd_height i1 i2).symm
  rw [Img.mk.injEq]
  refine ⟨hw, hh, funext fun x => funext fun y => ?_⟩
  rw [grayField_comm t (alignPair i1 i2).1 (alignPair i1 i2).2 hw hh]

/-- C6: `calculate_diff(A, B)` and `calculate_diff(B, A)` return identical
output images (dimensions and every pixel), since the per-pixel absolute
difference and everything derived from it is symmetric in the inputs. -/
theorem claim_C6_symmetry (i1 i2 : Img) (th : ℕ) (opts : Option ℕ) :
    (calculate_diff th (.decodable i1) (.decodable i2) opts).output =
      (calculate_diff th (.decodable i2) (.decodable i1) opts).output := by
  cases opts with
  | none => exact congrArg some (calculate_diff_core_comm th i1 i2)
  | some t => exact congrArg some (calculate_diff_core_comm t i1 i2)

/-! ### The hot colormap claims -/

/-- C3 as stated is false at the top of the range: at normalized intensity
`t = 1.0` (gray level 255) the colormap yields RGB (255, 255, 254), not
(255, 255, 255): float32 evaluates `(1.0 - 0.8) / 0.2 * 255` to about
254.99998, which the uint8 cast truncates to 254. -/
theorem claim_C3_counterexample :
    apply_hot_colormap 255 ≠ ⟨255, 255, 255⟩ ∧
    apply_hot_colormap 255 = ⟨255, 255, 254⟩ := by
  constructor <;> decide

/-- C3 amended: over the 256 representable normalized intensities
`t = g / 255`, the red channel is 0 at `t = 0`, positive and nondecreasing on
the ramp, and saturated at 255 for `t ≥ 0.33` (`100 g ≥ 33 · 255`); the green
channel is 0 for `t ≤ 0.33`, nondecreasing, and saturated at 255 for
`t ≥ 0.66`; the blue channel is 0 for `t < 0.8`, is 0 at `t = 0.8` exactly
(gray 204), and ramps up to 254 — not 255 — at `t = 1.0`; the landmark
values are `t = 0 ↦ (0,0,0)`, `t ≈ 0.33 ↦ (254,0,0)` and `(255,2,0)`,
`t ≈ 0.66 ↦ (255,255,0)`, and `t = 1.0 ↦ (255,255,254)`. -/
theorem claim_C3_amended :
    apply_hot_colormap 0 = ⟨0, 0, 0⟩ ∧
    (∀ g : Fin 256, 33 * 255 ≤ 100 * (g : ℕ) → hotR (g : ℕ) = 255) ∧
    (∀ g : Fin 256, 1 ≤ (g : ℕ) → 0 < hotR (g : ℕ)) ∧
    (∀ g : Fin 256, 100 * (g : ℕ) ≤ 33 * 255 → hotG (g : ℕ) = 0) ∧
    (∀ g : Fin 256, 66 * 255 ≤ 100 * (g : ℕ) → hotG (g : ℕ) = 255) ∧
    (∀ g : Fin 256, 10 * (g : ℕ) < 8 * 255 → hotB (g : ℕ) = 0) ∧
    (∀ g : Fin 255, hotR (g : ℕ) ≤ hotR ((g : ℕ) + 1) ∧
      hotG (g : ℕ) ≤ hotG ((g : ℕ) + 1) ∧ hotB (g : ℕ) ≤ hotB ((g : ℕ) + 1)) ∧
    apply_hot_colormap 84 = ⟨254, 0, 0⟩ ∧
    apply_hot_colormap 85 = ⟨255, 2, 0⟩ ∧
    apply_hot_colormap 169 = ⟨255, 255, 0⟩ ∧
    apply_hot_colormap 204 = ⟨255, 255, 0⟩ ∧
    apply_hot_colormap 255 = ⟨255, 255, 254⟩ :=
  ⟨by decide, by decide, by decide, by decide, by decide, by decide,
    by decide, by decide, by decide, by decide, by decide, by decide⟩

theorem claim_C3_amended_witness :
    hotR 255 = 255 ∧ hotG 255 = 255 ∧ hotB 100 = 0 :=
  ⟨claim_C3_amended.2.1 255 (by decide),
    claim_C3_amended.2.2.2.2.1 255 (by decide),
    claim_C3_amended.2.2.2.2.2.1 100 (by decide)⟩

/-! ### Size reconciliation -/

theorem core_width (t : ℕ) (i1 i2 : Img) :
    (calculate_diff_core t i1 i2).width = max i1.width i2.width :=
  alignPair_fst_width i1 i2

theorem core_height (t : ℕ) (i1 i2 : Img) :
    (calculate_diff_core t i1 i2).height = max i1.height i2.height :=
  alignPair_fst_height i1 i2

theorem statsCore_total (t : ℕ) (i1 i2 : Img) :
    (statsCore t i1 i2).total_pixels =
      max i1.height i2.height * max i1.width i2.width := by
  show (alignPair i1 i2).1.height * (alignPair i1 i2).1.width = _
  rw [alignPair_fst_height, alignPair_fst_width]

/-- C4: for any two decodable images, both operations reconcile sizes to
`(max width, max height)` — resizing any image that differs from the target
— so the output difference image has the maximal dimensions and
`total_pixels` equals their product; images whose dimensions already match
pass through unchanged. -/
theorem claim_C4_size_reconciliation (i1 i2 : Img) (th t0 : ℕ)
    (opts : Option ℕ) :
    (∃ out, (calculate_diff th (.decodable i1) (.decodable i2) opts).output =
        some out ∧
      out.width = max i1.width i2.width ∧
      out.height = max i1.height i2.height) ∧
    (∃ s, (calculate_diff_stats t0 (.decodable i1) (.decodable i2)).stats =
        some s ∧
      s.total_pixels = max i1.height i2.height * max i1.width i2.width) ∧
    (i1.width = i2.width → i1.height = i2.height →
      alignPair i1 i2 = (i1, i2)) ∧
    ((i1.width, i1.height) ≠ (i2.width, i2.height) →
      (i1.width, i1.height) ≠ (max i1.width i2.width, max i1.height i2.height) →
      (alignPair i1 i2).1 =
        resize i1 (max i1.width i2.width) (max i1.height i2.height)) := by
  refine ⟨?_, ⟨statsCore t0 i1 i2, rfl, statsCore_total t0 i1 i2⟩,
    alignPair_of_eq i1 i2, ?_⟩
  · cases opts with
    | none =>
        exact ⟨calculate_diff_core th i1 i2, rfl, core_width th i1 i2,
          core_height th i1 i2⟩
    | some t =>
        exact ⟨calculate_diff_core t i1 i2, rfl, core_width t i1 i2,
          core_height t i1 i2⟩
  · intro hne h1
    unfold alignPair
    rw [if_pos hne]
    dsimp only
    rw [if_pos h1]

/-- A solid 10×10 image, and a solid 20×10 image of a different color, as in
the size-reconciliation scenario of the specification. -/
def imgA10 : Img := ⟨10, 10, fun _ _ => ⟨255, 0, 0⟩⟩

/-- See `imgA10`. -/
def imgB20 : Img := ⟨20, 10, fun _ _ => ⟨0, 0, 255⟩⟩

theorem claim_C4_witness :
    (∃ out, (calculate_diff 10 (.decodable imgA10) (.decodable imgB20)
        none).output = some out ∧
      out.width = max imgA10.width imgB20.width ∧
      out.height = max imgA10.height imgB20.height) ∧
    max imgA10.width imgB20.width = 20 ∧
    max imgA10.height imgB20.height = 10 ∧
    (∃ s, (calculate_diff_stats 10 (.decodable imgA10)
        (.decodable imgB20)).stats = some s ∧
      s.total_pixels = max imgA10.height imgB20.height *
        max imgA10.width imgB20.width) ∧
    max imgA10.height imgB20.height * max imgA10.width imgB20.width = 200 ∧
    alignPair imgGray2 imgGray2 = (imgGray2, imgGray2) ∧
    (alignPair imgA10 imgB20).1 =
      resize imgA10 (max imgA10.width imgB20.width)
        (max imgA10.height imgB20.height) :=
  ⟨(claim_C4_size_reconciliation imgA10 imgB20 10 10 none).1,
    by decide, by decide,
    (claim_C4_size_reconciliation imgA10 imgB20 10 10 none).2.1,
    by decide,
    (claim_C4_size_reconciliation imgGray2 imgGray2 10 10 none).2.2.1 rfl rfl,
    (claim_C4_size_reconciliation imgA10 imgB20 10 10 none).2.2.2
      (by decide) (by decide)⟩

/-! ### All differences below the threshold -/

/-- C7: two same-size images whose per-pixel mean-channel difference is
everywhere strictly below the threshold (`diffSum < 3 * threshold`) yield an
all-black difference image (the thresholded field is identically zero, so
normalization leaves every value 0) and statistics with `diff_pixels = 0`
and `diff_percentage = 0`. -/
theorem claim_C7_all_below_threshold (i1 i2 : Img) (th : ℕ)
    (hw : i1.width = i2.width) (hh : i1.height = i2.height)
    (hlt : ∀ x y, x < i1.width → y < i1.height →
      diffSum i1 i2 x y < 3 * th) :
    (∃ out, (calculate_diff th (.decodable i1) (.decodable i2) none).output =
        some out ∧
      ∀ x y, x < out.width → y < out.height → out.pix x y = ⟨0, 0, 0⟩) ∧
    (∃ s, (calculate_diff_stats th (.decodable i1) (.decodable i2)).stats =
        some s ∧
      s.diff_pixels = 0 ∧ s.diff_percentage = 0) := by
  have halign := alignPair_of_eq i1 i2 hw hh
  have hthr : ∀ x y, x < i1.width → y < i1.height →
      thresholdedSum th i1 i2 x y = 0 := by
    intro x y hx hy
    unfold thresholdedSum
    rw [if_pos (hlt x y hx hy)]
  have hmax : maxSum th i1 i2 = 0 := by
    refine Nat.le_zero.mp (Finset.sup_le ?_)
    rintro ⟨x, y⟩ hp
    simp only [grid, Finset.mem_product, Finset.mem_range] at hp
    exact le_of_eq (hthr x y hp.1 hp.2)
  have hdp : diffPixelsCore th i1 i2 = 0 := by
    unfold diffPixelsCore
    rw [Finset.card_eq_zero, Finset.eq_empty_iff_forall_not_mem]
    rintro ⟨x, y⟩ hp
    rw [Finset.mem_filter] at hp
    have hp1 := hp.1
    simp only [grid, Finset.mem_product, Finset.mem_range] at hp1
    exact absurd hp.2 (Nat.lt_asymm (hlt x y hp1.1 hp1.2))
  constructor
  · refine ⟨calculate_diff_core th i1 i2, rfl, ?_⟩
    intro x y hx hy
    rw [core_width, ← hw, max_self] at hx
    rw [core_height, ← hh, max_self] at hy
    show apply_hot_colormap
      (grayField th (alignPair i1 i2).1 (alignPair i1 i2).2 x y) = ⟨0, 0, 0⟩
    rw [halign]
    show apply_hot_colormap (grayField th i1 i2 x y) = ⟨0, 0, 0⟩
    unfold grayField
    rw [hmax, if_neg (lt_irrefl 0), hthr x y hx hy, Nat.zero_div]
    exact hot_zero
  · refine ⟨statsCore th i1 i2, rfl, ?_, ?_⟩ <;>
      simp [statsCore, halign, hdp]

/-- A 1×1 image with channels (12, 12, 12): uniform noise of mean-channel
magnitude 2 against `imgBase1`. -/
def imgNoise1 : Img := ⟨1, 1, fun _ _ => ⟨12, 12, 12⟩⟩

/-- A 1×1 image with channels (10, 10, 10). -/
def imgBase1 : Img := ⟨1, 1, fun _ _ => ⟨10, 10, 10⟩⟩

theorem claim_C7_witness :
    (imgBase1.width = imgNoise1.width ∧ imgBase1.height = imgNoise1.height ∧
      diffSum imgBase1 imgNoise1 0 0 < 3 * 10) ∧
    ((∃ out, (calculate_diff 10 (.decodable imgBase1) (.decodable imgNoise1)
        none).output = some out ∧
      ∀ x y, x < out.width → y < out.height → out.pix x y = ⟨0, 0, 0⟩) ∧
    (∃ s, (calculate_diff_stats 10 (.decodable imgBase1)
        (.decodable imgNoise1)).stats = some s ∧
      s.diff_pixels = 0 ∧ s.diff_percentage = 0)) :=
  ⟨⟨rfl, rfl, by decide⟩,
    claim_C7_all_below_threshold imgBase1 imgNoise1 10 rfl rfl
      (fun x y _ _ => by simp [diffSum, absDiff, imgBase1, imgNoise1])⟩

/-! ### Threshold monotonicity of the statistics -/

/-- C5: for a fixed pair of decodable (nonempty) images, `diff_percentage`
reported by `calculate_diff_stats` is antitone in the threshold: raising the
threshold never increases it. -/
theorem claim_C5_threshold_antitone (i1 i2 : Img) (t1 t2 : ℕ) (hle : t1 ≤ t2)
    (hw : 0 < i1.width) (hh : 0 < i1.height) :
    ∀ s1 s2,
      (calculate_diff_stats t1 (.decodable i1) (.decodable i2)).stats = some s1 →
      (calculate_diff_stats t2 (.decodable i1) (.decodable i2)).stats = some s2 →
      s2.diff_percentage ≤ s1.diff_percentage := by
  intro s1 s2 h1 h2
  have e1 : some (statsCore t1 i1 i2) = some s1 := h1
  have e2 : some (statsCore t2 i1 i2) = some s2 := h2
  rw [← Option.some.inj e1, ← Option.some.inj e2]
  have hcard : diffPixelsCore t2 (alignPair i1 i2).1 (alignPair i1 i2).2 ≤
      diffPixelsCore t1 (alignPair i1 i2).1 (alignPair i1 i2).2 := by
    apply Finset.card_le_card
    intro p hp
    rw [Finset.mem_filter] at hp ⊢
    refine ⟨hp.1, ?_⟩
    have := hp.2
    omega
  have hT : (0 : ℚ) <
      (((alignPair i1 i2).1.height * (alignPair i1 i2).1.width : ℕ) : ℚ) := by
    have ha : 0 < (alignPair i1 i2).1.height := by
      rw [alignPair_fst_height]
      exact lt_of_lt_of_le hh (le_max_left _ _)
    have hb : 0 < (alignPair i1 i2).1.width := by
      rw [alignPair_fst_width]
      exact lt_of_lt_of_le hw (le_max_left _ _)
    exact_mod_cast Nat.mul_pos ha hb
  show (diffPixelsCore t2 (alignPair i1 i2).1 (alignPair i1 i2).2 : ℚ) /
      (((alignPair i1 i2).1.height * (alignPair i1 i2).1.width : ℕ) : ℚ) * 100 ≤
    (diffPixelsCore t1 (alignPair i1 i2).1 (alignPair i1 i2).2 : ℚ) /
      (((alignPair i1 i2).1.height * (alignPair i1 i2).1.width : ℕ) : ℚ) * 100
  have hdiv := (div_le_div_iff_of_pos_right hT).mpr
    (show (diffPixelsCore t2 (alignPair i1 i2).1 (alignPair i1 i2).2 : ℚ) ≤
        (diffPixelsCore t1 (alignPair i1 i2).1 (alignPair i1 i2).2 : ℚ) by
      exact_mod_cast hcard)
  exact mul_le_mul_of_nonneg_right hdiv (by norm_num)

/-- A solid white 1×1 image. -/
def imgWhite1 : Img := ⟨1, 1, fun _ _ => ⟨255, 255, 255⟩⟩

theorem claim_C5_witness :
    (5 ≤ 9 ∧ 0 < imgBlack1.width ∧ 0 < imgBlack1.height) ∧
    (statsCore 9 imgBlack1 imgWhite1).diff_percentage ≤
      (statsCore 5 imgBlack1 imgWhite1).diff_percentage :=
  ⟨⟨by decide, by decide, by decide⟩,
    claim_C5_threshold_antitone imgBlack1 imgWhite1 5 9 (by decide) (by decide)
      (by decide) (statsCore 5 imgBlack1 imgWhite1)
      (statsCore 9 imgBlack1 imgWhite1) rfl rfl⟩

/-! ### The argmax pixel saturates red and green -/

theorem diffImageAligned_argmax (th : ℕ) (a b : Img)
    (hnz : ∃ x y, x < a.width ∧ y < a.height ∧
      0 < thresholdedSum th a b x y) :
    ∃ x y, x < a.width ∧ y < a.height ∧
      ((diffImageAligned th a b).pix x y).r = 255 ∧
      ((diffImageAligned th a b).pix x y).g = 255 := by
  obtain ⟨x0, y0, hx0, hy0, hpos⟩ := hnz
  have hmem : (x0, y0) ∈ grid a.width a.height := by
    simp only [grid, Finset.mem_product, Finset.mem_range]
    exact ⟨hx0, hy0⟩
  have hM : 0 < maxSum th a b :=
    lt_of_lt_of_le hpos
      (Finset.le_sup (f := fun p => thresholdedSum th a b p.1 p.2) hmem)
  obtain ⟨p, hp, hsup⟩ := Finset.exists_mem_eq_sup (grid a.width a.height)
    ⟨(x0, y0), hmem⟩ (fun p => thresholdedSum th a b p.1 p.2)
  simp only [grid, Finset.mem_product, Finset.mem_range] at hp
  have hsupM : maxSum th a b = thresholdedSum th a b p.1 p.2 := hsup
  have hth : 0 < thresholdedSum th a b p.1 p.2 := hsupM ▸ hM
  have hgray : grayField th a b p.1 p.2 = 255 := by
    unfold grayField
    rw [if_pos hM, hsupM]
    exact Nat.mul_div_cancel_left 255 hth
  refine ⟨p.1, p.2, hp.1, hp.2, ?_, ?_⟩
  · show (apply_hot_colormap (grayField th a b p.1 p.2)).r = 255
    rw [hgray]
    exact hotR_top
  · show (apply_hot_colormap (grayField th a b p.1 p.2)).g = 255
    rw [hgray]
    exact hotG_top

/-- C9: whenever the post-threshold difference field of the aligned pair is
not identically zero, normalization maps the field maximum to gray level
exactly 255, so the colorized output has at least one pixel with red and
green channels both 255. -/
theorem claim_C9_argmax_saturated (i1 i2 : Img) (th : ℕ)
    (hnz : ∃ x y, x < (alignPair i1 i2).1.width ∧
      y < (alignPair i1 i2).1.height ∧
      0 < thresholdedSum th (alignPair i1 i2).1 (alignPair i1 i2).2 x y) :
    ∃ out, (calculate_diff th (.decodable i1) (.decodable i2) none).output =
        some out ∧
      ∃ x y, x < out.width ∧ y < out.height ∧
        (out.pix x y).r = 255 ∧ (out.pix x y).g = 255 := by
  obtain ⟨x, y, hx, hy, hr, hg⟩ :=
    diffImageAligned_argmax th (alignPair i1 i2).1 (alignPair i1 i2).2 hnz
  exact ⟨calculate_diff_core th i1 i2, rfl, x, y, hx, hy, hr, hg⟩

theorem claim_C9_witness :
    (0 < (alignPair imgBlack1 imgWhite1).1.width ∧
      0 < (alignPair imgBlack1 imgWhite1).1.height ∧
      0 < thresholdedSum 10 (alignPair imgBlack1 imgWhite1).1
        (alignPair imgBlack1 imgWhite1).2 0 0) ∧
    (∃ out, (calculate_diff 10 (.decodable imgBlack1) (.decodable imgWhite1)
        none).output = some out ∧
      ∃ x y, x < out.width ∧ y < out.height ∧
        (out.pix x y).r = 255 ∧ (out.pix x y).g = 255) :=
  ⟨⟨by decide, by decide, by decide⟩,
    claim_C9_argmax_saturated imgBlack1 imgWhite1 10
      ⟨0, 0, by decide, by decide, by decide⟩⟩

/-! ### A pixel exactly at the threshold -/

/-- C10: a pixel whose mean-channel difference equals the threshold exactly
(`diffSum = 3 * threshold`) survives the thresholding step of
`calculate_diff` (only values strictly below the threshold are zeroed) and,
for a positive threshold, is rendered non-black — yet the statistics count
(`diff_gray > threshold`, strict) excludes it: the pixel is reported as
similar while being visualized as different. -/
theorem claim_C10_boundary_pixel (i1 i2 : Img) (th x y : ℕ)
    (hv1 : i1.Valid) (hv2 : i2.Valid)
    (hw : i1.width = i2.width) (hh : i1.height = i2.height)
    (hx : x < i1.width) (hy : y < i1.height)
    (heq : diffSum i1 i2 x y = 3 * th) :
    thresholdedSum th i1 i2 x y = diffSum i1 i2 x y ∧
    (x, y) ∉ (grid i1.width i1.height).filter
      (fun p => 3 * th < diffSum i1 i2 p.1 p.2) ∧
    (1 ≤ th → ∃ out,
      (calculate_diff th (.decodable i1) (.decodable i2) none).output =
        some out ∧
      out.pix x y ≠ ⟨0, 0, 0⟩) := by
  have hkeep : thresholdedSum th i1 i2 x y = diffSum i1 i2 x y := by
    unfold thresholdedSum
    rw [heq, if_neg (lt_irrefl (3 * th))]
  refine ⟨hkeep, ?_, ?_⟩
  · intro hmem
    have h2 := (Finset.mem_filter.mp hmem).2
    dsimp only at h2
    omega
  · intro hth1
    have halign := alignPair_of_eq i1 i2 hw hh
    have hmem : (x, y) ∈ grid i1.width i1.height := by
      simp only [grid, Finset.mem_product, Finset.mem_range]
      exact ⟨hx, hy⟩
    have hMge : 3 * th ≤ maxSum th i1 i2 := by
      have hle := Finset.le_sup
        (f := fun p => thresholdedSum th i1 i2 p.1 p.2) hmem
      dsimp only at hle
      rw [hkeep, heq] at hle
      exact hle
    have hM0 : 0 < maxSum th i1 i2 := by omega
    have hMle : maxSum th i1 i2 ≤ 765 := by
      refine Finset.sup_le ?_
      rintro ⟨u, v⟩ hp
      simp only [grid, Finset.mem_product, Finset.mem_range] at hp
      have hb1 := hv1 u v hp.1 hp.2
      have hb2 := hv2 u v (hw ▸ hp.1) (hh ▸ hp.2)
      have hds : diffSum i1 i2 u v ≤ 765 := by
        unfold diffSum absDiff
        omega
      unfold thresholdedSum
      split_ifs
      · exact Nat.zero_le 765
      · exact hds
    have hgf : grayField th i1 i2 x y = 3 * th * 255 / maxSum th i1 i2 := by
      unfold grayField
      rw [if_pos hM0, hkeep, heq]
    have hgray_le : grayField th i1 i2 x y ≤ 255 := by
      rw [hgf]
      calc 3 * th * 255 / maxSum th i1 i2
          ≤ maxSum th i1 i2 * 255 / maxSum th i1 i2 :=
            Nat.div_le_div_right (Nat.mul_le_mul_right 255 hMge)
        _ = 255 := Nat.mul_div_cancel_left 255 hM0
    have hgray_ge : th ≤ grayField th i1 i2 x y := by
      rw [hgf]
      calc th = 3 * th * 255 / 765 := by
            rw [show 3 * th * 255 = 765 * th by ring,
              Nat.mul_div_cancel_left th (by norm_num)]
        _ ≤ 3 * th * 255 / maxSum th i1 i2 :=
            Nat.div_le_div_left hMle hM0
    refine ⟨calculate_diff_core th i1 i2, rfl, ?_⟩
    show apply_hot_colormap
      (grayField th (alignPair i1 i2).1 (alignPair i1 i2).2 x y) ≠ ⟨0, 0, 0⟩
    rw [halign]
    show apply_hot_colormap (grayField th i1 i2 x y) ≠ ⟨0, 0, 0⟩
    exact hot_nonblack ⟨grayField th i1 i2 x y, Nat.lt_succ_of_le hgray_le⟩
      (le_trans hth1 hgray_ge)

theorem claim_C10_witness :
    (imgBlack1.Valid ∧ imgBase1.Valid ∧
      diffSum imgBlack1 imgBase1 0 0 = 3 * 10) ∧
    (thresholdedSum 10 imgBlack1 imgBase1 0 0 =
        diffSum imgBlack1 imgBase1 0 0 ∧
      (0, 0) ∉ (grid imgBlack1.width imgBlack1.height).filter
        (fun p => 3 * 10 < diffSum imgBlack1 imgBase1 p.1 p.2) ∧
      (1 ≤ 10 → ∃ out,
        (calculate_diff 10 (.decodable imgBlack1) (.decodable imgBase1)
          none).output = some out ∧
        out.pix 0 0 ≠ ⟨0, 0, 0⟩)) :=
  ⟨⟨fun x y _ _ => by simp [imgBlack1], fun x y _ _ => by simp [imgBase1],
      by decide⟩,
    claim_C10_boundary_pixel imgBlack1 imgBase1 10 0 0
      (fun x y _ _ => by simp [imgBlack1])
      (fun x y _ _ => by simp [imgBase1])
      rfl rfl (by decide) (by decide) (by decide)⟩

end ImageDiff
